import Mathlib

/-!
Verification of the UTF-8 string library (`src/lua_utf8.cpp`) of grit-util.

The module operates on ICU `UnicodeString` values built from the host's UTF-8
strings.  We embed a `UnicodeString` at codepoint granularity as a `List Char`
(a `Char` is exactly one Unicode scalar value), which is the abstraction the
module's index arithmetic is written against (`countChar32` = length).  The
ICU regex engine is kept abstract (a `RegexEngine` record); a concrete
instance `litEngine` models its behaviour on patterns that contain no ICU
metacharacters, where the pattern matches as a literal codepoint sequence.
Host-visible results are lists of Lua values; `my_lua_error` aborts are the
`.error` branch of `Except`, carrying the message and no result values.
-/

/-- A `UnicodeString` viewed as its sequence of codepoints. -/
abbrev UStr := List Char

/-- Build a `UStr` from a Lean string literal. -/
def S (x : String) : UStr := x.toList

/-- The half-open codepoint range `[a, b)` of a string, as extracted by
`UnicodeString::extractBetween(a, b, target)`. -/
def uslice (s : UStr) (a b : Nat) : UStr := (s.drop a).take (b - a)

/-- A Lua value as pushed back to the host: nil, a number, or a string. -/
inductive LV where
  | nil : LV
  | num : Int → LV
  | str : UStr → LV
deriving DecidableEq, Repr

/-- One successful `RegexMatcher::find` result: 0-based codepoint start,
exclusive end (`matcher.start()` / `matcher.end()`), and the texts of capture
groups `1..groupCount()` in order. -/
structure MatchInfo where
  start : Nat
  stop : Nat
  groups : List UStr
deriving DecidableEq, Repr

/-- Text of group 0 (the whole match), `matcher.group(status)`. -/
def mSlice (s : UStr) (m : MatchInfo) : UStr := uslice s m.start m.stop

/-- Reinterpretation of a raw 1-based index against length `L`: a negative
value stands for `value + L + 1` (the source's `if (start < 0) start += len+1;`,
spec section 4.1). -/
def reinterp (len v : Int) : Int := if v < 0 then v + len + 1 else v

/-- Index normalization of `lua_utf8_sub` (the statement sequence between
`long len = ustr.countChar32();` and the `APP_ASSERT` lines, including the
final `start--`): raw 1-based, possibly negative `start`/`limit` become the
0-based half-open extraction range.  Returned pair is `(start, limit)` as
they stand at the assertion point. -/
def subNorm (len start0 limit0 : Int) : Int × Int :=
  let start := reinterp len start0
  let limit := reinterp len limit0
  let start := if start > len then len + 1 else start
  let start := if start < 1 then 1 else start
  let limit := if limit > len then len else limit
  let limit := if limit < 0 then 0 else limit
  let limit := if limit < start then start - 1 else limit
  (start - 1, limit)

/-- `lua_utf8_sub`: normalize the two indices, then
`ustr.extractBetween(start, limit, target)`.  Absent arguments default to
`start = 1`, `limit = -1` as in the source's `switch`. -/
def lua_utf8_sub (s : UStr) (start0 limit0 : Int) : UStr :=
  let r := subNorm (s.length : Int) start0 limit0
  uslice s r.1.toNat r.2.toNat

example : lua_utf8_sub (S "abc") 1 (-1) = S "abc" := by decide
example : lua_utf8_sub (S "abc") 5 3 = S "" := by decide
example : lua_utf8_sub (S "abc") (-1) (-1) = S "c" := by decide

instance {ε α : Type} [DecidableEq ε] [DecidableEq α] : DecidableEq (Except ε α) :=
  fun a b =>
    match a, b with
    | .ok x, .ok y =>
      if h : x = y then .isTrue (by rw [h]) else .isFalse (by simp [h])
    | .error x, .error y =>
      if h : x = y then .isTrue (by rw [h]) else .isFalse (by simp [h])
    | .ok _, .error _ => .isFalse (by simp)
    | .error _, .ok _ => .isFalse (by simp)

/-- The ICU regex engine as the module consumes it (a black box, spec
section 1): pattern compilation (the `RegexMatcher(needle, 0, status)`
constructor, erroring with a `u_errorName` diagnostic), and a find primitive
(`reset` the matcher on the subject, then `find` from a 0-based position,
returning the match bounds and the capture-group texts). -/
structure RegexEngine where
  Pat : Type
  compile : UStr → Except UStr Pat
  findFrom : Pat → UStr → Nat → Option MatchInfo

/-- The error message `"Syntax error in regex: \"" + needle + "\": " +
u_errorName(status)` raised on compile failure by find, match, gmatch and
gsub. -/
def compileErrMsg (needle errName : UStr) : UStr :=
  S "Syntax error in regex: \"" ++ needle ++ S "\": " ++ errName

/-- First position `j ≥ i` at which `pat` occurs literally in `s`, if any:
`UnicodeString::indexOf(needle, init)`, and also the ICU find primitive for
a pattern with no regex metacharacters. -/
def litFindFrom (s pat : UStr) (i : Nat) : Option Nat :=
  (List.range (s.length + 1)).find? fun j => i ≤ j && pat.isPrefixOf (s.drop j)

/-- Model of the ICU engine on patterns that contain no ICU regex
metacharacters (none of backslash, bar, parentheses, square or curly
brackets, caret, dollar, star, plus, question mark, dot): such a pattern is
compiled successfully and matches exactly its own codepoint sequence, with
no capture groups.  Used to evaluate the models on concrete calls. -/
def litEngine : RegexEngine where
  Pat := UStr
  compile := fun p => .ok p
  findFrom := fun p s i => (litFindFrom s p i).map fun j => ⟨j, j + p.length, []⟩

/-- ICU engine instance for compile-failure scenarios: the unbalanced
pattern consisting of one opening parenthesis (the spec's own example of a
syntactically invalid pattern) fails to compile with the ICU diagnostic
`U_REGEX_MISMATCHED_PAREN`; every other pattern is handled as in
`litEngine`. -/
def parenEngine : RegexEngine where
  Pat := UStr
  compile := fun p =>
    if p = S "(" then .error (S "U_REGEX_MISMATCHED_PAREN") else .ok p
  findFrom := fun p s i => (litFindFrom s p i).map fun j => ⟨j, j + p.length, []⟩

/-- `lua_utf8_find`.  Arguments default to `init = 1`, `plain = false`.
The result models the values pushed to the host; `.error` is a
`my_lua_error` abort. -/
def lua_utf8_find (E : RegexEngine) (haystack needle : UStr) (init0 : Int)
    (plain : Bool) : Except UStr (List LV) :=
  let haystack_len : Int := haystack.length
  let needle_len : Int := needle.length
  if init0 > haystack_len then .ok []
  else
    let init := if init0 < 0 then init0 + haystack_len + 1 else init0
    let init := if init < 1 then 1 else init
    let init := init - 1
    if plain then
      match litFindFrom haystack needle init.toNat with
      | none => .ok [LV.nil]
      | some r => .ok [LV.num (r + 1), LV.num (r + needle_len)]
    else
      match E.compile needle with
      | .error e => .error (compileErrMsg needle e)
      | .ok pat =>
        match E.findFrom pat haystack init.toNat with
        | none => .ok [LV.nil]
        | some m =>
          .ok ([LV.num ((m.start : Int) + 1), LV.num (m.stop : Int)]
               ++ m.groups.map LV.str)

/-- `aux_match`: push each capture group's text in order, or the whole match
when the pattern has no groups; push nil when `find` failed. -/
def aux_match (s : UStr) : Option MatchInfo → List LV
  | none => [LV.nil]
  | some m =>
    if m.groups.isEmpty then [LV.str (mSlice s m)] else m.groups.map LV.str

/-- `lua_utf8_match`.  The `init` argument defaults to 1.  An empty haystack
short-circuits to nil before the matcher is built; otherwise `init` is
clamped down to the length, negative values are reinterpreted from the end,
and the matcher is reset at the 0-based position before one `find`. -/
def lua_utf8_match (E : RegexEngine) (haystack needle : UStr) (init0 : Int) :
    Except UStr (List LV) :=
  let haystack_len : Int := haystack.length
  if haystack_len = 0 then .ok [LV.nil]
  else
    let init := if init0 > haystack_len then haystack_len else init0
    let init := if init < 0 then init + haystack_len + 1 else init
    let init := if init < 1 then 1 else init
    let init := init - 1
    match E.compile needle with
    | .error e => .error (compileErrMsg needle e)
    | .ok pat => .ok (aux_match haystack (E.findFrom pat haystack init.toNat))

example : lua_utf8_find litEngine (S "hello world") (S "wor") 1 true
    = .ok [LV.num 7, LV.num 9] := by decide
example : lua_utf8_find litEngine (S "hello") (S "zzz") 1 true
    = .ok [LV.nil] := by decide
example : lua_utf8_match litEngine (S "abc") (S "c") 100
    = .ok [LV.str (S "c")] := by decide

/-- `lua_utf8_codepoint`: arguments 2 and 3 are the optional 1-based
positions `i` and `j` (absent is `none`); `posi` defaults to 1 and is raised
to 1 if nonpositive, `pose` defaults to `posi`, is raised to `posi` when
`pose <= posi`, then clamped down to the codepoint count; one number per
position `posi..pose` is pushed, the value being the codepoint at that
1-based position. -/
def lua_utf8_codepoint (s : UStr) (argi argj : Option Int) : List Nat :=
  let posi := argi.getD 1
  let posi := if posi ≤ 0 then 1 else posi
  let pose := argj.getD posi
  let pose := if pose ≤ posi then posi else pose
  let pose := if pose > (s.length : Int) then (s.length : Int) else pose
  (List.range' posi.toNat (pose + 1 - posi).toNat).map
    fun i => (s.getD (i - 1) (Char.ofNat 0)).toNat

/-- `lua_utf8_char`: each numeric argument is cast to a `UChar32` and
appended in order.  Modelled for valid codepoint values (for values that are
not Unicode scalar values the ICU append behaviour is outside the claims'
scope). -/
def lua_utf8_char (args : List Nat) : UStr := args.map Char.ofNat

example : lua_utf8_codepoint (lua_utf8_char [65, 20013]) none none = [65] := by
  decide
example : lua_utf8_codepoint (lua_utf8_char [65, 20013]) (some 1) (some 2)
    = [65, 20013] := by decide

/-- The `RegexWrapper` userdata behind a `gmatch` iterator: the compiled
pattern together with its original text (`matcher.pattern().pattern()`), the
subject the matcher was reset on (`matcher.input()`), and the engine's
internal cursor (position from which the next `find()` resumes). -/
structure RegexWrapper (E : RegexEngine) where
  pat : E.Pat
  patText : UStr
  text : UStr
  cursor : Nat

/-- `lua_utf8_gmatch`: compile the pattern (a failure is a raised error
naming the pattern), reset the matcher on the haystack and return the
wrapper that the iterator closure captures. -/
def lua_utf8_gmatch (E : RegexEngine) (haystack needle : UStr) :
    Except UStr (RegexWrapper E) :=
  match E.compile needle with
  | .error e => .error (compileErrMsg needle e)
  | .ok p => .ok ⟨p, needle, haystack, 0⟩

/-- `lua_utf8_gmatch_iter`: one `find()` on the captured matcher, yielding
the same values as `aux_match` and advancing the internal cursor (ICU
resumes after the previous match, stepping one further when the previous
match was empty). -/
def lua_utf8_gmatch_iter (E : RegexEngine) (w : RegexWrapper E) :
    List LV × RegexWrapper E :=
  match E.findFrom w.pat w.text w.cursor with
  | none => ([LV.nil], w)
  | some m =>
    (aux_match w.text (some m),
     ⟨w.pat, w.patText, w.text, if m.stop = m.start then m.stop + 1 else m.stop⟩)

/-- The wrapper after `n` iterator invocations. -/
def iterN (E : RegexEngine) : Nat → RegexWrapper E → RegexWrapper E
  | 0, w => w
  | n + 1, w => iterN E n (lua_utf8_gmatch_iter E w).2

/-- `regex_matcher_index`: attribute lookup on the matcher userdata.
`input` yields the subject text, `pattern` the pattern text, and any other
key raises an error naming the key. -/
def regex_matcher_index (E : RegexEngine) (w : RegexWrapper E) (key : UStr) :
    Except UStr LV :=
  if key = S "input" then .ok (LV.str w.text)
  else if key = S "pattern" then .ok (LV.str w.patText)
  else .error (S "Not a readable RegexMatcher member: " ++ key)

/-- Replacement-text processing of `RegexMatcher::appendReplacement` (ICU,
consumed as a black box): a backslash escapes the following character to a
literal, and a dollar sign followed by a digit `d` inserts the text of
capture group `d`, group 0 being the whole match; all other characters,
including percent signs, are copied verbatim.  Simplifications that no
theorem below exercises: group references are modelled single-digit, and a
dangling dollar or backslash is kept rather than raising the engine
error. -/
def icuReplText (whole : UStr) (groups : List UStr) : UStr → UStr
  | [] => []
  | '\\' :: c :: rest => c :: icuReplText whole groups rest
  | ['\\'] => ['\\']
  | '$' :: c :: rest =>
    if c.isDigit then
      (if c = '0' then whole else (groups.getD (c.toNat - 49) []))
        ++ icuReplText whole groups rest
    else '$' :: c :: icuReplText whole groups rest
  | ['$'] => ['$']
  | c :: rest => c :: icuReplText whole groups rest

/-- `checkustring`: argument at `idx` must be a host string, otherwise a
raised error names the index. -/
def checkustring (idx : Int) (v : LV) : Except UStr UStr :=
  match v with
  | .str s => .ok s
  | _ => .error (S "Expected a string at index " ++ S (toString idx))

/-- The three shapes of gsub's `repl` argument, the `mode` dispatch at the
top of `lua_utf8_gsub`: a callable, a table (a keyed map from keys to Lua
values, absent keys reading as nil), or a template string. -/
inductive ReplArg where
  | func : (List UStr → LV) → ReplArg
  | table : (UStr → Option LV) → ReplArg
  | str : UStr → ReplArg

/-- Arguments passed to a callable `repl`: every capture group in order, or
the whole match when the pattern has no groups. -/
def gsubCallArgs (s : UStr) (m : MatchInfo) : List UStr :=
  if m.groups.isEmpty then [mSlice s m] else m.groups

/-- Table-mode lookup key: the first capture group, or the whole match when
the pattern has no groups. -/
def gsubKey (s : UStr) (m : MatchInfo) : UStr :=
  if m.groups.isEmpty then mSlice s m else m.groups.getD 0 []

/-- One iteration's replacement text acquisition in `lua_utf8_gsub`: call
the function / index the table and pass the result through
`checkustring(L,-1)`, or use the template string as is. -/
def gsubApply (s : UStr) (r : ReplArg) (m : MatchInfo) : Except UStr UStr :=
  match r with
  | .func f => checkustring (-1) (f (gsubCallArgs s m))
  | .table t => checkustring (-1) ((t (gsubKey s m)).getD LV.nil)
  | .str r0 => .ok r0

/-- The `while (matcher.find() && counter++ != n)` loop of `lua_utf8_gsub`
over the successive find results `ms`, with counter `c`, append position
`pos` and accumulated output `acc`; each iteration appends the unmatched gap
and the processed replacement (`appendReplacement`), and on exit the tail
from the append position is flushed (`appendTail`).  Returns the final
string and the number of replacements performed. -/
def gsubGo (s : UStr) (r : ReplArg) (n : Int) :
    List MatchInfo → Nat → Nat → UStr → Except UStr (UStr × Nat)
  | [], c, _pos, acc => .ok (acc ++ s.drop _pos, c)
  | m :: rest, c, pos, acc =>
    if (c : Int) = n then .ok (acc ++ s.drop pos, c)
    else
      match gsubApply s r m with
      | .error e => .error e
      | .ok repl =>
        gsubGo s r n rest (c + 1) m.stop
          (acc ++ uslice s pos m.start ++ icuReplText (mSlice s m) m.groups repl)

/-- The gsub loop started on counter 0 at the beginning of the subject. -/
def gsubRun (s : UStr) (r : ReplArg) (n : Int) (ms : List MatchInfo) :
    Except UStr (UStr × Nat) :=
  gsubGo s r n ms 0 0 []

/-- The successive results of repeated `find()` calls on one matcher: each
call resumes at the engine's cursor, which a match advances to its end (one
further for an empty match).  The fuel `s.length + 1` is an upper bound on
the number of matches, since the cursor strictly increases and `find` fails
beyond the end of the subject. -/
def engineMatchesAux (E : RegexEngine) (p : E.Pat) (s : UStr) :
    Nat → Nat → List MatchInfo
  | 0, _ => []
  | fuel + 1, i =>
    match E.findFrom p s i with
    | none => []
    | some m =>
      m :: engineMatchesAux E p s fuel (if m.stop = m.start then m.stop + 1 else m.stop)

/-- All matches of a compiled pattern over a subject, in order. -/
def engineMatches (E : RegexEngine) (p : E.Pat) (s : UStr) : List MatchInfo :=
  engineMatchesAux E p s (s.length + 1) 0

/-- `lua_utf8_gsub`: the optional fourth argument defaults to `n = -1`;
compile the pattern (failure raises, naming the pattern), run the
replacement loop, then push the substituted string — the only value
returned (`return 1`). -/
def lua_utf8_gsub (E : RegexEngine) (haystack needle : UStr) (r : ReplArg)
    (n : Int) : Except UStr (List LV) :=
  match E.compile needle with
  | .error e => .error (compileErrMsg needle e)
  | .ok p =>
    match gsubRun haystack r n (engineMatches E p haystack) with
    | .error e => .error e
    | .ok res => .ok [LV.str res.1]

example : lua_utf8_gsub litEngine (S "aaa") (S "a") (ReplArg.str (S "b")) 2
    = .ok [LV.str (S "bba")] := by decide
example : lua_utf8_gsub litEngine (S "aaa") (S "a") (ReplArg.str (S "b")) (-1)
    = .ok [LV.str (S "bbb")] := by decide
example : lua_utf8_gsub litEngine (S "a1b2c3") (S "%d") (ReplArg.str (S "#")) (-1)
    = .ok [LV.str (S "a1b2c3")] := by decide
example : gsubRun (S "aaa") (ReplArg.str (S "b")) (-1)
    (engineMatches litEngine (S "a") (S "aaa")) = .ok (S "bbb", 3) := by decide

/-! ## Helper lemmas -/

theorem uslice_all (s : UStr) : uslice s 0 s.length = s := by
  simp [uslice]

theorem uslice_nil (s : UStr) {a b : Nat} (h : b ≤ a) : uslice s a b = [] := by
  simp [uslice, Nat.sub_eq_zero_of_le h]

theorem char_toNat_ofNat {n : Nat} (h : n.isValidChar) : (Char.ofNat n).toNat = n := by
  simp [Char.ofNat, h, Char.toNat, Char.ofNatAux, UInt32.toNat, UInt32.ofNat']

/-! ## Claims -/

/-- C2 counterexample: `match("abc", "c", 100)` has `I = 100 > L = 3`, yet it
does not fail with the no-match signal: `lua_utf8_match` clamps the init
down to `L` (`if (init>haystack_len) init = haystack_len;`) and searching
from the last codepoint still finds `"c"`. -/
theorem match_init_past_len_counterexample :
    lua_utf8_match litEngine (S "abc") (S "c") 100 = .ok [LV.str (S "c")] ∧
    lua_utf8_match litEngine (S "abc") (S "c") 100 ≠ .ok [LV.nil] := by
  decide

/-- C2 amended: when `I > L`, `find` fails immediately — it returns no
values at all, before any engine work and for any engine and plain flag —
while `match` instead clamps `I` down to `L` and searches from the last
codepoint, so it can still succeed, as on `match("abc", "c", 100)`. -/
theorem find_init_past_len_fails (E : RegexEngine) (haystack needle : UStr)
    (init : Int) (plain : Bool) (h : (haystack.length : Int) < init) :
    lua_utf8_find E haystack needle init plain = .ok [] ∧
    lua_utf8_match litEngine (S "abc") (S "c") 100 = .ok [LV.str (S "c")] := by
  constructor
  · simp only [lua_utf8_find]
    rw [if_pos (by omega : init > (haystack.length : Int))]
  · decide

/-- Closed instance of `find_init_past_len_fails`: `find("abc", "z", 100)`
returns no values. -/
theorem find_init_past_len_fails_witness :
    lua_utf8_find litEngine (S "abc") (S "z") 100 false = .ok [] :=
  (find_init_past_len_fails litEngine (S "abc") (S "z") 100 false (by decide)).1

/-- C9 counterexample: with the syntactically invalid pattern `"("`,
`match("", "(")` returns nil — the empty-haystack short-circuit runs before
the pattern is ever compiled — and `find("", "(", 1)` returns no values —
the `init > L` early return also precedes compilation.  Neither call raises
an error, refuting the claim's universal statement. -/
theorem compile_error_not_always_raised_counterexample :
    lua_utf8_match parenEngine (S "") (S "(") 1 = .ok [LV.nil] ∧
    lua_utf8_find parenEngine (S "") (S "(") 1 false = .ok [] := by
  decide

/-- C9 amended: for every engine and pattern whose compilation fails with
diagnostic `e`, `find` (plain = false) raises whenever `init ≤ L`, `match`
raises whenever the haystack is non-empty, and `gmatch` and `gsub` always
raise; each raised message embeds the original pattern text, and a raised
call returns no result values (`.error` carries only the message).  When
`init > L` (find) or the haystack is empty (match), the call instead
returns its non-error early result without compiling the pattern. -/
theorem compile_error_raises (E : RegexEngine) (needle e : UStr)
    (hc : E.compile needle = .error e) :
    (∀ (haystack : UStr) (init : Int), init ≤ (haystack.length : Int) →
      lua_utf8_find E haystack needle init false = .error (compileErrMsg needle e)) ∧
    (∀ (haystack : UStr) (init : Int), haystack ≠ [] →
      lua_utf8_match E haystack needle init = .error (compileErrMsg needle e)) ∧
    (∀ haystack : UStr,
      lua_utf8_gmatch E haystack needle = .error (compileErrMsg needle e)) ∧
    (∀ (haystack : UStr) (r : ReplArg) (n : Int),
      lua_utf8_gsub E haystack needle r n = .error (compileErrMsg needle e)) ∧
    (∃ pre post : UStr, compileErrMsg needle e = pre ++ needle ++ post) := by
  refine ⟨?_, ?_, ?_, ?_, ?_⟩
  · intro haystack init hinit
    simp only [lua_utf8_find]
    rw [if_neg (by omega : ¬ init > (haystack.length : Int))]
    simp [hc]
  · intro haystack init hne
    have hlen : (haystack.length : Int) ≠ 0 := by
      have : haystack.length ≠ 0 := fun h0 => hne (List.length_eq_zero.mp h0)
      omega
    simp only [lua_utf8_match]
    rw [if_neg hlen]
    simp [hc]
  · intro haystack
    simp [lua_utf8_gmatch, hc]
  · intro haystack r n
    simp [lua_utf8_gsub, hc]
  · exact ⟨S "Syntax error in regex: \"", S "\": " ++ e, by
      simp [compileErrMsg, List.append_assoc]⟩

/-- Closed instance of `compile_error_raises`: on the invalid pattern `"("`
both `find("a", "(", 1)` and `gsub("a", "(", "x")` raise the error naming
the pattern. -/
theorem compile_error_raises_witness :
    lua_utf8_find parenEngine (S "a") (S "(") 1 false
      = .error (compileErrMsg (S "(") (S "U_REGEX_MISMATCHED_PAREN")) ∧
    lua_utf8_gsub parenEngine (S "a") (S "(") (ReplArg.str (S "x")) (-1)
      = .error (compileErrMsg (S "(") (S "U_REGEX_MISMATCHED_PAREN")) := by
  have h := compile_error_raises parenEngine (S "(")
    (S "U_REGEX_MISMATCHED_PAREN") (by rfl)
  exact ⟨h.1 (S "a") 1 (by decide), h.2.2.2.1 (S "a") (ReplArg.str (S "x")) (-1)⟩

theorem iterN_preserves_texts (E : RegexEngine) (n : Nat) (w : RegexWrapper E) :
    (iterN E n w).patText = w.patText ∧ (iterN E n w).text = w.text := by
  induction n generalizing w with
  | zero => exact ⟨rfl, rfl⟩
  | succ k ih =>
    simp only [iterN]
    have h := ih (lua_utf8_gmatch_iter E w).2
    have hp : (lua_utf8_gmatch_iter E w).2.patText = w.patText ∧
        (lua_utf8_gmatch_iter E w).2.text = w.text := by
      simp only [lua_utf8_gmatch_iter]
      cases E.findFrom w.pat w.text w.cursor <;> simp
    exact ⟨h.1.trans hp.1, h.2.trans hp.2⟩

/-- C8: on a matcher created by `gmatch`, after any number of iterator
invocations, exactly the two attributes `input` (the subject text) and
`pattern` (the pattern text) are readable; the `pattern` attribute equals
the pattern text originally supplied to `gmatch` no matter how far the
cursor has advanced, and any other key raises an error naming that key. -/
theorem gmatch_matcher_attributes (E : RegexEngine) (haystack needle : UStr)
    (w : RegexWrapper E) (hw : lua_utf8_gmatch E haystack needle = .ok w) (n : Nat) :
    regex_matcher_index E (iterN E n w) (S "pattern") = .ok (LV.str needle) ∧
    regex_matcher_index E (iterN E n w) (S "input") = .ok (LV.str haystack) ∧
    ∀ key : UStr, key ≠ S "input" → key ≠ S "pattern" →
      regex_matcher_index E (iterN E n w) key
        = .error (S "Not a readable RegexMatcher member: " ++ key) := by
  have hwfields : w.patText = needle ∧ w.text = haystack := by
    simp only [lua_utf8_gmatch] at hw
    cases hcomp : E.compile needle with
    | error e => rw [hcomp] at hw; simp at hw
    | ok p =>
      rw [hcomp] at hw
      have : (⟨p, needle, haystack, 0⟩ : RegexWrapper E) = w := by
        simpa using hw
      rw [← this]
      exact ⟨rfl, rfl⟩
  have hpres := iterN_preserves_texts E n w
  have hpat : (iterN E n w).patText = needle := hpres.1.trans hwfields.1
  have htext : (iterN E n w).text = haystack := hpres.2.trans hwfields.2
  refine ⟨?_, ?_, ?_⟩
  · simp only [regex_matcher_index]
    rw [if_neg (by decide)]
    simp [hpat]
  · simp only [regex_matcher_index]
    simp [htext]
  · intro key hk1 hk2
    simp only [regex_matcher_index]
    rw [if_neg hk1, if_neg hk2]

/-- Closed instance of `gmatch_matcher_attributes`: a matcher from
`gmatch("ab", "a")`, advanced one iteration, still reads `pattern` as
`"a"`, and reading the key `"x"` is the reported error naming `"x"`. -/
theorem gmatch_matcher_attributes_witness :
    regex_matcher_index litEngine (iterN litEngine 1 ⟨S "a", S "a", S "ab", 0⟩)
      (S "pattern") = .ok (LV.str (S "a")) ∧
    regex_matcher_index litEngine (iterN litEngine 1 ⟨S "a", S "a", S "ab", 0⟩)
      (S "x") = .error (S "Not a readable RegexMatcher member: " ++ S "x") := by
  have h := gmatch_matcher_attributes litEngine (S "ab") (S "a")
    ⟨S "a", S "a", S "ab", 0⟩ rfl 1
  exact ⟨h.1, h.2.2 (S "x") (by decide) (by decide)⟩

theorem gsubGo_str_count (s repl : UStr) (nn : Nat) :
    ∀ (ms : List MatchInfo) (c pos : Nat) (acc : UStr), c ≤ nn →
    ∃ out, gsubGo s (ReplArg.str repl) (nn : Int) ms c pos acc
      = .ok (out, min nn (c + ms.length)) := by
  intro ms
  induction ms with
  | nil =>
    intro c pos acc hc
    refine ⟨acc ++ s.drop pos, ?_⟩
    simp only [gsubGo, List.length_nil, Nat.add_zero]
    rw [Nat.min_eq_right hc]
  | cons m rest ih =>
    intro c pos acc hc
    by_cases hcn : (c : Int) = (nn : Int)
    · have hceq : c = nn := by exact_mod_cast hcn
      refine ⟨acc ++ s.drop pos, ?_⟩
      simp only [gsubGo, if_pos hcn, List.length_cons]
      have : min nn (c + (rest.length + 1)) = c := by omega
      rw [this]
    · have hlt : c < nn := by
        have : c ≠ nn := fun hh => hcn (by exact_mod_cast hh)
        omega
      obtain ⟨out, hout⟩ := ih (c + 1)
        m.stop (acc ++ uslice s pos m.start ++ icuReplText (mSlice s m) m.groups repl)
        (by omega)
      refine ⟨out, ?_⟩
      simp only [gsubGo, if_neg hcn, gsubApply]
      rw [hout]
      have : min nn (c + 1 + rest.length) = min nn (c + (rest.length + 1)) := by omega
      rw [this]
      simp [List.length_cons]

/-- C4: the gsub loop `while (matcher.find() && counter++ != n)` performs
exactly `min(n, total match count)` replacements for every numeric limit
`n ≥ 0` — hence at most `n`, and the boundary cases `n = 0`, `1`,
`count-1`, `count` all replace exactly `min(n, count)` — and in particular
`gsub("aaa", "a", "b", 2)` yields `"bba"` with 2 replacements. -/
theorem gsub_limit_replacements :
    (∀ (s repl : UStr) (nn : Nat) (ms : List MatchInfo),
      ∃ out, gsubRun s (ReplArg.str repl) (nn : Int) ms = .ok (out, min nn ms.length)) ∧
    lua_utf8_gsub litEngine (S "aaa") (S "a") (ReplArg.str (S "b")) 2
      = .ok [LV.str (S "bba")] ∧
    gsubRun (S "aaa") (ReplArg.str (S "b")) 2
      (engineMatches litEngine (S "a") (S "aaa")) = .ok (S "bba", 2) := by
  refine ⟨?_, by decide, by decide⟩
  intro s repl nn ms
  obtain ⟨out, h⟩ := gsubGo_str_count s repl nn ms 0 0 [] (Nat.zero_le _)
  exact ⟨out, by simpa [gsubRun] using h⟩

theorem checkustring_of_not_str {v : LV} (h : ∀ r : UStr, v ≠ LV.str r) :
    checkustring (-1) v = .error (S "Expected a string at index -1") := by
  cases v with
  | nil => decide
  | num k =>
    simp only [checkustring]
    decide
  | str r => exact absurd rfl (h r)

theorem gsubGo_table_error (s : UStr) (t : UStr → Option LV) (n : Int)
    (m : MatchInfo) (post : List MatchInfo)
    (hfail : checkustring (-1) ((t (gsubKey s m)).getD LV.nil)
      = .error (S "Expected a string at index -1")) :
    ∀ (pre : List MatchInfo) (c pos : Nat) (acc : UStr),
      (∀ k : Nat, k ≤ pre.length → (((c + k : Nat) : Int) ≠ n)) →
      (∀ m' ∈ pre, ∃ r : UStr,
        checkustring (-1) ((t (gsubKey s m')).getD LV.nil) = .ok r) →
      gsubGo s (ReplArg.table t) n (pre ++ m :: post) c pos acc
        = .error (S "Expected a string at index -1") := by
  intro pre
  induction pre with
  | nil =>
    intro c pos acc hcn _hok
    have hc : ((c : Nat) : Int) ≠ n := by simpa using hcn 0 (by omega)
    simp only [List.nil_append, gsubGo, if_neg hc, gsubApply]
    rw [hfail]
  | cons m' rest ih =>
    intro c pos acc hcn hok
    have hc : ((c : Nat) : Int) ≠ n := by simpa using hcn 0 (by omega)
    obtain ⟨r, hr⟩ := hok m' (List.mem_cons_self m' rest)
    simp only [List.cons_append, gsubGo, if_neg hc, gsubApply]
    rw [hr]
    exact ih (c + 1) m'.stop _
      (fun k hk => by
        have := hcn (k + 1) (by simpa using Nat.succ_le_succ hk)
        simpa [Nat.add_assoc, Nat.add_comm, Nat.add_left_comm] using this)
      (fun m'' hm => hok m'' (List.mem_cons_of_mem m' hm))

/-- C10: in gsub's table mode, whenever the loop reaches a match whose
lookup key (first capture group, or the whole match when the pattern has no
groups) is absent from the table or maps to a non-string value, the call
aborts with the `checkustring` error — the `.error` result carries no
output string, so the original match text is not kept as a fallback.  The
match is reached when every earlier match's lookup yielded a string and the
replacement limit `n` has not been hit (`n < 0`, the no-limit default, or
more earlier matches than `n`). -/
theorem gsub_table_missing_key_aborts (s : UStr) (t : UStr → Option LV)
    (n : Int) (pre post : List MatchInfo) (m : MatchInfo)
    (hfail : ∀ r : UStr, (t (gsubKey s m)).getD LV.nil ≠ LV.str r)
    (hok : ∀ m' ∈ pre, ∃ r : UStr, (t (gsubKey s m')).getD LV.nil = LV.str r)
    (hn : n < 0 ∨ (pre.length : Int) < n) :
    gsubRun s (ReplArg.table t) n (pre ++ m :: post)
      = .error (S "Expected a string at index -1") := by
  apply gsubGo_table_error s t n m post (checkustring_of_not_str hfail) pre 0 0 []
  · intro k hk
    rcases hn with h1 | h1 <;> omega
  · intro m' hm
    obtain ⟨r, hr⟩ := hok m' hm
    exact ⟨r, by rw [hr]; rfl⟩

/-- Closed instance of `gsub_table_missing_key_aborts`: one match over
`"ab"` whose key is absent from the empty table; the call errors. -/
theorem gsub_table_missing_key_aborts_witness :
    gsubRun (S "ab") (ReplArg.table fun _ => none) (-1)
      ([] ++ (⟨0, 1, []⟩ : MatchInfo) :: [])
      = .error (S "Expected a string at index -1") :=
  gsub_table_missing_key_aborts (S "ab") (fun _ => none) (-1) [] [] ⟨0, 1, []⟩
    (fun r h => by cases h)
    (fun m' hm => absurd hm (List.not_mem_nil m'))
    (Or.inl (by decide))

/-- C1 (code bug evaluation): `gsub("a1b2c3", "%d", "#")` against the engine
the code actually delegates to.  The pattern `"%d"` contains no ICU
metacharacters, so it matches only the literal two-codepoint text `"%d"`,
which does not occur in `"a1b2c3"`: the result is `"a1b2c3"` with 0
replacements, not `"a#b#c#"`.  The last two conjuncts exhibit the template
convention of `appendReplacement`, through which the code passes `repl`
verbatim: a dollar-digit escape substitutes a group, while percent
sequences are inert literals. -/
theorem gsub_percent_template_eval :
    lua_utf8_gsub litEngine (S "a1b2c3") (S "%d") (ReplArg.str (S "#")) (-1)
      = .ok [LV.str (S "a1b2c3")] ∧
    gsubRun (S "a1b2c3") (ReplArg.str (S "#")) (-1)
      (engineMatches litEngine (S "%d") (S "a1b2c3")) = .ok (S "a1b2c3", 0) ∧
    icuReplText (S "1") [] (S "a$0b") = S "a1b" ∧
    icuReplText (S "1") [] (S "%0") = S "%0" := by
  decide

/-- C5 (code bug evaluation): `gsub("aaa", "a", "b")` performs 3
replacements, but the call pushes only the substituted string (`return 1`):
the result is the single value `"bbb"`, and is not the two-value result
`("bbb", 3)` that would expose the replacement count. -/
theorem gsub_returns_single_value :
    lua_utf8_gsub litEngine (S "aaa") (S "a") (ReplArg.str (S "b")) (-1)
      = .ok [LV.str (S "bbb")] ∧
    lua_utf8_gsub litEngine (S "aaa") (S "a") (ReplArg.str (S "b")) (-1)
      ≠ .ok [LV.str (S "bbb"), LV.num 3] := by
  decide

/-- C7: for every string and every raw start and raw limit (absent arguments
being the defaults `1` and `-1`, both covered by the quantification over all
integers), `subNorm` yields a 0-based half-open range `(start, limit)` with
`0 ≤ start ≤ limit ≤ L`, i.e. each of the five `APP_ASSERT` guards of
`lua_utf8_sub` holds and the range is valid for `extractBetween`. -/
theorem sub_norm_range_safe : ∀ (s : UStr) (start0 limit0 : Int),
    0 ≤ (subNorm (s.length : Int) start0 limit0).1 ∧
    (subNorm (s.length : Int) start0 limit0).1 ≤ (subNorm (s.length : Int) start0 limit0).2 ∧
    (subNorm (s.length : Int) start0 limit0).2 ≤ (s.length : Int) ∧
    (subNorm (s.length : Int) start0 limit0).1 ≤ (s.length : Int) := by
  intro s start0 limit0
  simp only [subNorm, reinterp]
  split_ifs <;> omega

/-- C3: `sub(s, 1, -1)` is `s` for every `s`; whenever the reinterpreted
(negative means `value + L + 1`) limit is below the reinterpreted start,
`sub(s, i, j)` is empty; and on a non-empty string `sub(s, -1)` (absent
limit defaulting to `-1`) is the final codepoint. -/
theorem sub_identities :
    (∀ s : UStr, lua_utf8_sub s 1 (-1) = s) ∧
    (∀ (s : UStr) (i j : Int),
      reinterp (s.length : Int) j < reinterp (s.length : Int) i →
      lua_utf8_sub s i j = []) ∧
    (∀ (s : UStr) (h : s ≠ []), lua_utf8_sub s (-1) (-1) = [s.getLast h]) := by
  refine ⟨?_, ?_, ?_⟩
  · intro s
    have h : subNorm (s.length : Int) 1 (-1) = (0, (s.length : Int)) := by
      simp only [subNorm, reinterp, Prod.mk.injEq]
      split_ifs <;> omega
    simp [lua_utf8_sub, h, uslice_all]
  · intro s i j hij
    have h : (subNorm (s.length : Int) i j).2 ≤ (subNorm (s.length : Int) i j).1 := by
      simp only [subNorm]
      generalize reinterp (s.length : Int) i = i' at hij ⊢
      generalize reinterp (s.length : Int) j = j' at hij ⊢
      split_ifs <;> omega
    simp only [lua_utf8_sub]
    exact uslice_nil s (by omega)
  · intro s h
    have hlen : 1 ≤ s.length := List.length_pos.mpr h
    have hn : subNorm (s.length : Int) (-1) (-1)
        = ((s.length : Int) - 1, (s.length : Int)) := by
      simp only [subNorm, reinterp, Prod.mk.injEq]
      split_ifs <;> omega
    have hcast : ((s.length : Int) - 1).toNat = s.length - 1 := by omega
    have hcast2 : ((s.length : Int)).toNat = s.length := by omega
    simp only [lua_utf8_sub, hn, hcast, hcast2, uslice]
    have hdl : s.dropLast ++ [s.getLast h] = s := List.dropLast_append_getLast h
    have hl : s.dropLast.length = s.length - 1 := List.length_dropLast s
    have hdrop : s.drop (s.length - 1) = [s.getLast h] := by
      calc s.drop (s.length - 1)
          = (s.dropLast ++ [s.getLast h]).drop s.dropLast.length := by rw [hdl, hl]
        _ = [s.getLast h] := List.drop_left _ _
    rw [hdrop]
    have : s.length - (s.length - 1) = 1 := by omega
    rw [this]
    rfl

/-- C6 counterexample: `codepoint(char(65, 0x4E2D))` with the positions left
absent returns only `(65)` — the defaults are `i = j = 1`, so one value per
position in `[1,1]` — not the full sequence `(65, 0x4E2D)` the claim
requires. -/
theorem codepoint_char_default_counterexample :
    lua_utf8_codepoint (lua_utf8_char [65, 20013]) none none = [65] ∧
    lua_utf8_codepoint (lua_utf8_char [65, 20013]) none none ≠ [65, 20013] := by
  decide

/-- C6 amended: for every sequence of valid codepoint values `c1..cn`,
`codepoint(char(c1, ..., cn), 1, n)` — the range covering every position
being spelled out, since the defaults are `i = j = 1` — returns `c1..cn`
back, one numeric result per position in order. -/
theorem codepoint_char_roundtrip (ns : List Nat) (h : ∀ n ∈ ns, n.isValidChar) :
    lua_utf8_codepoint (lua_utf8_char ns) (some 1) (some (ns.length : Int)) = ns := by
  rcases Nat.eq_zero_or_pos ns.length with h0 | hpos
  · have hnil : ns = [] := List.length_eq_zero.mp h0
    subst hnil; decide
  · have hlen : (lua_utf8_char ns).length = ns.length := by
      simp [lua_utf8_char]
    have hred : lua_utf8_codepoint (lua_utf8_char ns) (some 1) (some (ns.length : Int))
        = (List.range' 1 ns.length).map
            (fun i => ((lua_utf8_char ns).getD (i - 1) (Char.ofNat 0)).toNat) := by
      simp only [lua_utf8_codepoint, Option.getD, hlen]
      have c1 : ¬ ((1:Int) ≤ 0) := by omega
      rw [if_neg c1]
      have c2 : (if (ns.length : Int) ≤ 1 then (1:Int) else (ns.length : Int))
          = (ns.length : Int) := by
        split_ifs <;> omega
      rw [c2]
      have c3 : ¬ ((ns.length : Int) > (ns.length : Int)) := by omega
      rw [if_neg c3]
      have c4 : ((1:Int).toNat) = 1 := rfl
      have c5 : (((ns.length : Int) + 1 - 1).toNat) = ns.length := by omega
      rw [c4, c5]
    rw [hred]
    apply List.ext_getElem
    · simp
    · intro i h1 h2
      simp only [List.getElem_map, List.getElem_range']
      rw [show 1 + 1 * i - 1 = i from by omega]
      rw [List.getD_eq_getElem]
      · simp only [lua_utf8_char, List.getElem_map]
        exact char_toNat_ofNat (h _ (List.getElem_mem _))
      · simp only [hlen]
        simpa using h1

/-- Closed instance of `codepoint_char_roundtrip` at the claim's own
example values, with the range `1..2` explicit. -/
theorem codepoint_char_roundtrip_witness :
    lua_utf8_codepoint (lua_utf8_char [65, 20013]) (some 1) (some 2) = [65, 20013] :=
  codepoint_char_roundtrip [65, 20013] (by decide)

/-- Closed instance of `sub_identities`: on `"ab"`, the empty-range case at
`i = 5 > j = 3` and the last-codepoint case. -/
theorem sub_identities_witness :
    lua_utf8_sub (S "ab") 5 3 = [] ∧ lua_utf8_sub (S "ab") (-1) (-1) = ['b'] := by
  refine ⟨sub_identities.2.1 (S "ab") 5 3 (by decide), ?_⟩
  have h2 := sub_identities.2.2 (S "ab") (by decide)
  rw [h2]
  decide
